import Mathlib

/-!
Shallow embedding of the `doom-scroll-ads` repository (Python) in Lean 4,
with theorems settling the frozen claims C1 .. C10.

Conventions used throughout:
* Python `float` values that only ever undergo exact arithmetic in the source
  (sums, products of decimal literals, divisions) are modelled as `ℚ`.
* Python `int` is modelled as `Int` (arbitrary precision, may be negative).
* A Python `dict` built by item assignment is modelled as an association list
  `List (String × α)` together with `dictGet` (first match) and `dictInsert`
  (replace-in-place first match, else append at the end) — exactly the
  observable behaviour of CPython dicts, whose keys are unique and whose
  insertion order is preserved, with overwrites keeping the original position.
* File-system and network effects are modelled by passing the data the
  effectful call would have produced as an explicit argument.
-/

set_option maxRecDepth 16384

namespace DoomScrollAds

/-- Lookup in a Python-dict model: first entry with the given key. -/
def dictGet {α : Type} (m : List (String × α)) (k : String) : Option α :=
  match m with
  | [] => none
  | p :: rest => if p.1 = k then some p.2 else dictGet rest k

/-- Source `m[k] = v` on a Python-dict model: replace the first entry with key `k`
keeping its position, or append `(k, v)` at the end when `k` is absent. -/
def dictInsert {α : Type} (m : List (String × α)) (k : String) (v : α) :
    List (String × α) :=
  match m with
  | [] => [(k, v)]
  | p :: rest => if p.1 = k then (k, v) :: rest else p :: dictInsert rest k v

/-! ## src/das/ad_performance.py -/

/-- Source `AdPerformance` dataclass: aggregated performance metrics for ads tied to
a given product (`src/das/ad_performance.py`). -/
structure AdPerformance where
  product_path : String
  impressions : Int := 0
  total_watch_seconds : ℚ := 0
  likes : Int := 0
  shares : Int := 0
deriving DecidableEq

/-- Source `AdPerformance.avg_watch_seconds` property: `total_watch_seconds /
impressions if self.impressions else 0.0` (Python truthiness of an int is
`≠ 0`). -/
def AdPerformance.avg_watch_seconds (m : AdPerformance) : ℚ :=
  if m.impressions ≠ 0 then m.total_watch_seconds / (m.impressions : ℚ) else 0

/-- Source `AdPerformance.like_rate` property. -/
def AdPerformance.like_rate (m : AdPerformance) : ℚ :=
  if m.impressions ≠ 0 then (m.likes : ℚ) / (m.impressions : ℚ) else 0

/-- Source `AdPerformance.share_rate` property. -/
def AdPerformance.share_rate (m : AdPerformance) : ℚ :=
  if m.impressions ≠ 0 then (m.shares : ℚ) / (m.impressions : ℚ) else 0

/-- The `_metrics` dict of an `AdPerformanceStore`, keyed by product path. -/
abbrev AdPerformanceStore := List (String × AdPerformance)

/-- Source `AdPerformanceStore.record_impression`: no-op when `seconds_watched <= 0`;
otherwise `_get_or_create` the row for `product_path` and update it in place.
The trailing `self.save()` autosave is a file-system effect with no bearing on
the store contents and is not part of the state model. -/
def AdPerformanceStore.record_impression (store : AdPerformanceStore)
    (product_path : String) (seconds_watched : ℚ) (liked shared : Bool) :
    AdPerformanceStore :=
  if seconds_watched ≤ 0 then store
  else
    let metric := (dictGet store product_path).getD { product_path := product_path }
    let metric :=
      { metric with
        impressions := metric.impressions + 1
        total_watch_seconds := metric.total_watch_seconds + max 0 seconds_watched
        likes := metric.likes + (if liked then 1 else 0)
        shares := metric.shares + (if shared then 1 else 0) }
    dictInsert store product_path metric

/-- Source `AdPerformanceStore.score`: `0.0` when the product has no row or no
impressions; otherwise dispatch on the objective string, defaulting to the
engagement blend. -/
def AdPerformanceStore.score (store : AdPerformanceStore)
    (product_path objective : String) : ℚ :=
  match dictGet store product_path with
  | none => 0
  | some metric =>
    if metric.impressions = 0 then 0
    else if objective = "watch_time" then metric.avg_watch_seconds
    else if objective = "shares" then metric.share_rate
    else 0.4 * metric.like_rate + 0.4 * metric.share_rate +
      0.2 * (min metric.avg_watch_seconds 10 / 10)

/-- The concrete store of the spec example: one row with `impressions=10`,
`total_watch_seconds=80`, `likes=4`, `shares=2`. -/
def scoreDemoStore : AdPerformanceStore :=
  [("p", { product_path := "p", impressions := 10, total_watch_seconds := 80,
           likes := 4, shares := 2 })]

/-! ## src/das/ad_generation_dataclasses.py — constants and entities -/

/-- Source `USER_VIDEO_MEMORY_LIMIT = 50`. -/
def USER_VIDEO_MEMORY_LIMIT : Nat := 50

/-- Source `USER_X_HISTORY_LIMIT = 20`. -/
def USER_X_HISTORY_LIMIT : Nat := 20

/-- Source `MIN_SECONDS_FOR_CONTEXT = 5.0`. -/
def MIN_SECONDS_FOR_CONTEXT : ℚ := 5

/-- Source `XPost` dataclass: one item of the user's X activity. -/
structure XPost where
  text : String
  interaction_type : String
  author_handle : Option String := none
  url : Option String := none
deriving DecidableEq

/-- Source `XHistory` dataclass (the `context` property is an LLM call and is not part
of the state model). -/
structure XHistory where
  posts : List XPost := []
  x_handle : Option String := none
  cached_context : Option String := none
deriving DecidableEq

/-- Source `Video` dataclass: `path` plus an optional pointer back to the advertised
product (paths are modelled as their string form). -/
structure Video where
  path : String
  product_path : Option String := none
deriving DecidableEq

/-- Source `UserReaction` dataclass. -/
structure UserReaction where
  heart : Bool := false
  share : Bool := false
  seconds_watched : Option ℚ := none
deriving DecidableEq

/-- Source `User` dataclass. The two history fields are
`deque(maxlen=USER_VIDEO_MEMORY_LIMIT)`s, modelled as lists whose append
performs the deque's oldest-first eviction (see `dequeAppend`). -/
structure User where
  videos_watched : List Video := []
  videos_watched_reaction : List UserReaction := []
  x_history : Option XHistory := none
  x_handle : Option String := none
  cached_context : Option String := none
deriving DecidableEq

/-- Source `collections.deque(maxlen=n).append`: append on the right; when the deque
is full the leftmost (oldest) entry is evicted. -/
def dequeAppend {α : Type} (maxlen : Nat) (xs : List α) (x : α) : List α :=
  let ys := xs ++ [x]
  if maxlen < ys.length then ys.drop (ys.length - maxlen) else ys

/-- Source `User.append_video`: push onto both parallel deques and invalidate the
cached context. -/
def User.append_video (u : User) (video : Video) (user_reaction : UserReaction) : User :=
  { u with
    videos_watched := dequeAppend USER_VIDEO_MEMORY_LIMIT u.videos_watched video
    videos_watched_reaction :=
      dequeAppend USER_VIDEO_MEMORY_LIMIT u.videos_watched_reaction user_reaction
    cached_context := none }

/-- A sequence of `append_video` calls, oldest first. -/
def User.appendAll (u : User) (l : List (Video × UserReaction)) : User :=
  l.foldl (fun acc p => acc.append_video p.1 p.2) u

/-- The suffix of the last `n` elements of a list. -/
def takeRightN {α : Type} (n : Nat) (xs : List α) : List α :=
  xs.drop (xs.length - n)

/-- The 60 demo appends of the spec example: videos named `0` .. `59`, with a
recognizable alternating reaction pattern to exhibit index alignment. -/
def c4DemoPairs : List (Video × UserReaction) :=
  (List.range 60).map
    (fun i => ({ path := Nat.repr i }, { heart := decide (i % 2 = 0) }))

/-! ## src/das/ad_generation_dataclasses.py — build_user_from_stats -/

/-- One value of the `"videos"` dict in the persisted stats JSON, after the
well-typed JSON decoding the source performs (`path` is `none` when the field
is missing or not a string, in which case the source skips the entry;
`heart`/`share` default to false, `seconds_watched` to `0.0`). -/
structure StatsVideoEntry where
  path : Option String := none
  heart : Bool := false
  share : Bool := false
  seconds_watched : ℚ := 0
deriving DecidableEq

/-- The body of the `for entry in videos_data.values()` loop of
`build_user_from_stats`: skip entries without a string path, skip entries below
the minimum watch time that have no engagement, otherwise `append_video`. -/
def buildStep (user : User) (entry : StatsVideoEntry) : User :=
  match entry.path with
  | none => user
  | some path_str =>
    if entry.seconds_watched < MIN_SECONDS_FOR_CONTEXT ∧ (entry.heart || entry.share) = false
    then user
    else user.append_video { path := path_str }
      { heart := entry.heart, share := entry.share,
        seconds_watched := some entry.seconds_watched }

/-- Source `build_user_from_stats`, video-stats part. The X-handle block is a
best-effort network effect that only touches `x_handle`/`x_history`, and a
missing or malformed stats file returns the fresh `User` (the empty entry
list); the entries of the `"videos"` dict are processed in insertion order. -/
def build_user_from_stats (entries : List StatsVideoEntry) : User :=
  entries.foldl buildStep {}

/-- The inclusion filter of `build_user_from_stats`, as a per-entry function:
the `(Video, UserReaction)` pair appended for an entry, or `none` when the
entry is skipped. -/
def statsEntryIncluded (entry : StatsVideoEntry) : Option (Video × UserReaction) :=
  match entry.path with
  | none => none
  | some path_str =>
    if entry.seconds_watched < MIN_SECONDS_FOR_CONTEXT ∧ (entry.heart || entry.share) = false
    then none
    else some ({ path := path_str },
      { heart := entry.heart, share := entry.share,
        seconds_watched := some entry.seconds_watched })

/-- Fifty-one stats entries that all meet the inclusion condition
(`seconds_watched = 5 ≥ MIN_SECONDS_FOR_CONTEXT`). -/
def c3CexEntries : List StatsVideoEntry :=
  { path := some "a", seconds_watched := 5 } ::
    List.replicate 50 { path := some "b", seconds_watched := 5 }

/-! ## src/das/ad_generation_dataclasses.py — fetch_x_history -/

/-- Python string slicing `s[:n]`, by code points. -/
def pySlice (s : String) (n : Nat) : String := String.mk (s.data.take n)

/-- One element of the JSON array parsed out of the model response in
`fetch_x_history`, with the `.get` defaults already applied (`text` defaults to
`""`, `type` to `"authored"`, `author` to `None`). -/
structure XPostData where
  text : String := ""
  type : String := "authored"
  author : Option String := none
deriving DecidableEq

/-- The `posts` list built by `fetch_x_history` on its non-raising path, as a
function of what the network produced: `parsed` is the JSON array decoded from
the model response (`none` models a `json.JSONDecodeError`, in which case the
raw response content is stored as a single `summary` post), and `citations`
are the search citations attached to the response. Parsed posts are truncated
to `USER_X_HISTORY_LIMIT`, each text to 500 characters, and empty-text posts
are dropped; up to 5 citations are then appended as synthetic posts. When the
whole fetch raises, the code returns a history whose `posts` is a prefix of
this list (usually empty). -/
def fetch_x_history_posts (parsed : Option (List XPostData))
    (response_content : String) (citations : List String) : List XPost :=
  let base : List XPost :=
    match parsed with
    | some posts_data =>
      (posts_data.take USER_X_HISTORY_LIMIT).foldl
        (fun acc post_data =>
          let post : XPost := { text := pySlice post_data.text 500,
                                interaction_type := post_data.type,
                                author_handle := post_data.author }
          if post.text ≠ "" then acc ++ [post] else acc) []
    | none => [{ text := pySlice response_content 1500, interaction_type := "summary" }]
  base ++ (citations.take 5).map
    (fun url => { text := "Engaged with: " ++ url, interaction_type := "citation",
                  url := some url })

/-- A model response carrying 20 well-formed posts together with 5 citations. -/
def c5Posts : List XPostData := List.replicate 20 { text := "a" }

/-! ## src/das/ad_performance.py — persistence (load / save)

JSON values as decoded by `json.loads` (objects are modelled with their
duplicate keys already collapsed, as CPython's parser does, keeping the last
value; all payloads built below have unique keys). -/

inductive Json where
  | null
  | bool (b : Bool)
  | num (q : ℚ)
  | str (s : String)
  | arr (items : List Json)
  | obj (fields : List (String × Json))

/-- Python `str.strip()` (ASCII whitespace; the unicode extras are never
exercised here). -/
def pyStrip (s : String) : String :=
  String.mk (((s.data.dropWhile Char.isWhitespace).reverse.dropWhile
    Char.isWhitespace).reverse)

/-- Digit run to a natural number. -/
def digitsToNat (cs : List Char) : Nat :=
  cs.foldl (fun n c => n * 10 + (c.toNat - 48)) 0

/-- Python `int(s)` on a string: optional sign, then digits, surrounding
whitespace allowed; anything else raises (`none`). (Python additionally
accepts underscore digit separators; no theorem below exercises them.) -/
def pyIntOfString (s : String) : Option Int :=
  match pyStrip s |>.data with
  | [] => none
  | c :: rest =>
    if c = '-' then
      if rest ≠ [] ∧ rest.all Char.isDigit then some (-(digitsToNat rest : Int)) else none
    else if c = '+' then
      if rest ≠ [] ∧ rest.all Char.isDigit then some ((digitsToNat rest : Int)) else none
    else if (c :: rest).all Char.isDigit then some ((digitsToNat (c :: rest) : Int))
    else none

/-- Python `int(x)` on a JSON-decoded value: floats truncate toward zero,
booleans map to 0/1, numeric strings parse, and everything else raises
(`TypeError`/`ValueError`, modelled as `Except.error`). -/
def pyInt (v : Json) : Except Unit Int :=
  match v with
  | .num q => .ok (q.num.tdiv (q.den : Int))
  | .str s =>
    match pyIntOfString s with
    | some n => .ok n
    | none => .error ()
  | .bool b => .ok (if b then 1 else 0)
  | _ => .error ()

/-- Python `float(x)` on a JSON-decoded value: numbers pass through, booleans
map to 0/1, integer strings parse (Python also accepts decimal/scientific
strings; no theorem below exercises them), and everything else raises. -/
def pyFloat (v : Json) : Except Unit ℚ :=
  match v with
  | .num q => .ok q
  | .str s =>
    match pyIntOfString s with
    | some n => .ok (n : ℚ)
    | none => .error ()
  | .bool b => .ok (if b then 1 else 0)
  | _ => .error ()

/-- Python truthiness of a JSON-decoded value. -/
def jsonTruthy (v : Json) : Bool :=
  match v with
  | .null => false
  | .bool b => b
  | .num q => decide (q ≠ 0)
  | .str s => decide (s ≠ "")
  | .arr items => !items.isEmpty
  | .obj fields => !fields.isEmpty

def resolveProductPath (key : String) (v : Option Json) : String :=
  match v with
  | some w => if jsonTruthy w then (match w with | .str s => s | _ => key) else key
  | none => key

/-- One iteration of the row-parsing loop of `AdPerformanceStore.load`, for a
payload entry `key: {fields}`: `int()`/`float()` coercions with `.get`
defaults of 0; a coercion failure propagates as an uncaught Python error. -/
def parseAdPerformanceRow (key : String) (fields : List (String × Json)) :
    Except Unit (String × AdPerformance) := do
  let product_path := resolveProductPath key (dictGet fields "product_path")
  let impressions ← pyInt ((dictGet fields "impressions").getD (.num 0))
  let total_watch_seconds ← pyFloat ((dictGet fields "total_watch_seconds").getD (.num 0))
  let likes ← pyInt ((dictGet fields "likes").getD (.num 0))
  let shares ← pyInt ((dictGet fields "shares").getD (.num 0))
  return (product_path,
    { product_path := product_path, impressions := impressions,
      total_watch_seconds := total_watch_seconds, likes := likes, shares := shares })

/-- What reading the metrics file produced: the file may be absent, unreadable
(`OSError`), unparsable (`json.JSONDecodeError`), or parsed into a JSON
value. -/
inductive MetricsFileRead where
  | missing
  | ioError
  | malformed
  | parsed (payload : Json)

/-- The `for key, entry in payload.items()` loop of `AdPerformanceStore.load`:
non-dict row values are skipped; a row whose numeric fields cannot be coerced
raises out of the loop. -/
def loadRows : List (String × Json) → AdPerformanceStore →
    Except Unit AdPerformanceStore
  | [], metrics => .ok metrics
  | kv :: rest, metrics =>
    match kv.2 with
    | .obj fields =>
      match parseAdPerformanceRow kv.1 fields with
      | .ok row => loadRows rest (dictInsert metrics row.1 row.2)
      | .error e => .error e
    | _ => loadRows rest metrics

/-- Source `AdPerformanceStore.load`: absent/unreadable/unparsable files give an
empty store; a parsed non-dict payload gives an empty store; dict payloads are
folded row by row with `loadRows`, whose coercion failures propagate (the
`except` clause catches only `OSError` and `json.JSONDecodeError`). -/
def AdPerformanceStore.load (input : MetricsFileRead) :
    Except Unit AdPerformanceStore :=
  match input with
  | .missing => .ok []
  | .ioError => .ok []
  | .malformed => .ok []
  | .parsed payload =>
    match payload with
    | .obj kvs => loadRows kvs []
    | _ => .ok []

/-- Source `dataclasses.asdict` of one `AdPerformance` row, as the JSON value
`json.dumps` writes for it. -/
def AdPerformance.asdict (m : AdPerformance) : Json :=
  .obj [("product_path", .str m.product_path),
        ("impressions", .num (m.impressions : ℚ)),
        ("total_watch_seconds", .num m.total_watch_seconds),
        ("likes", .num (m.likes : ℚ)),
        ("shares", .num (m.shares : ℚ))]

/-- Source `AdPerformanceStore.save`: the JSON payload written to disk — the metrics
dict with each row serialized by `asdict` (the actual file write is
best-effort and not part of the state model). -/
def AdPerformanceStore.save (store : AdPerformanceStore) : Json :=
  .obj (store.map (fun p => (p.1, p.2.asdict)))

/-- The malformed payload of the C9 counterexample: valid JSON whose single
row carries a non-numeric `impressions` value. -/
def c9BadPayload : Json := .obj [("k", .obj [("impressions", .str "x")])]

/-! ## src/das/ad_generation.py — slugification and the cached-ad scan

`pathlib.Path` values are modelled by their string form, with `name` / `stem` /
`suffix` computed as `pathlib` does (POSIX separators; the all-dots corner
cases of `pathlib` are irrelevant to the filenames exercised here). -/

/-- Split a character list on `'/'`. -/
def splitOnSlash : List Char → List (List Char)
  | [] => [[]]
  | c :: rest =>
    let r := splitOnSlash rest
    if c = '/' then [] :: r
    else
      match r with
      | h :: t => (c :: h) :: t
      | [] => [[c]]

/-- Source `Path(s).name`: the final non-empty path component. -/
def pathName (s : String) : String :=
  String.mk (((splitOnSlash s.data).filter (fun c => c ≠ [])).getLastD [])

/-- Source `Path(s).suffix`: from the last dot of the name, when that dot is neither
leading nor trailing. -/
def pathSuffix (s : String) : String :=
  let cs := (pathName s).data
  match ((cs.enum.filter (fun p => p.2 = '.')).getLast?).map Prod.fst with
  | some i => if 0 < i ∧ i < cs.length - 1 then String.mk (cs.drop i) else ""
  | none => ""

/-- Source `Path(s).stem`: the name with its suffix removed. -/
def pathStem (s : String) : String :=
  let nm := pathName s
  let sfx := pathSuffix s
  String.mk (nm.data.take (nm.data.length - sfx.data.length))

/-- Python `str.lower()` (ASCII case mapping; the filenames and slugs
exercised here are ASCII). -/
def pyLower (s : String) : String := String.mk (s.data.map Char.toLower)

/-- A character the slug keeps: `[a-z0-9]`. -/
def isSlugChar (c : Char) : Bool :=
  (('a' ≤ c) && (c ≤ 'z')) || (('0' ≤ c) && (c ≤ '9'))

/-- Source `re.sub(r'[^a-z0-9]+', '-', ·)`: replace every maximal run of characters
outside `[a-z0-9]` by one dash (the boolean tracks being inside such a run). -/
def slugCollapse : List Char → Bool → List Char
  | [], _ => []
  | c :: rest, inRun =>
    if isSlugChar c then c :: slugCollapse rest false
    else if inRun then slugCollapse rest true
    else '-' :: slugCollapse rest true

/-- Source `str.strip('-')`. -/
def stripDashes (cs : List Char) : List Char :=
  ((cs.dropWhile (fun c => c = '-')).reverse.dropWhile (fun c => c = '-')).reverse

/-- Source `_slugify`: lower-case, strip, collapse non-alphanumeric runs to single
dashes, strip dashes, defaulting to `"unknown"` when empty. -/
def slugify (text : String) : String :=
  let t := pyStrip (pyLower text)
  let cs := stripDashes (slugCollapse t.data false)
  if cs.isEmpty then "unknown" else String.mk cs

/-- Source `Product` dataclass (its `context` property is a cached LLM call, not part
of the state model). -/
structure Product where
  path : String
deriving DecidableEq

/-- One result of `directory.iterdir()` in `collect_cached_ads`. -/
structure DirEntry where
  path : String
  isFile : Bool := true
deriving DecidableEq

/-- The supported ad-video extensions. -/
def adVideoExts : List String := [".mp4", ".mov", ".m4v", ".avi", ".mkv"]

/-- Source `stem.split("__", 1)[0]`: the text before the first `"__"` (the whole stem
when none occurs). -/
def takeBeforeDunder : List Char → List Char
  | [] => []
  | '_' :: '_' :: _ => []
  | c :: rest => c :: takeBeforeDunder rest

/-- See `takeBeforeDunder`. -/
def productSlugOf (stem : String) : String := String.mk (takeBeforeDunder stem.data)

/-- The `product_by_slug` lookup table of `collect_cached_ads`: slugified
product stem → product path, later products overwriting earlier ones with the
same slug, as dict assignment does. -/
def productBySlug (products : List Product) : List (String × String) :=
  products.foldl
    (fun m prod => dictInsert m (slugify (pathStem prod.path)) prod.path) []

/-- The list `collect_cached_ads` builds before `random.shuffle`: files with a
supported extension are kept, with `product_path` recovered from the slug
before the first `"__"` when the lookup table has it. -/
def collectCachedAdsRaw (products : List Product) (entries : List DirEntry) :
    List Video :=
  entries.filterMap
    (fun p =>
      if adVideoExts.contains (pyLower (pathSuffix p.path)) ∧ p.isFile = true then
        match dictGet (productBySlug products) (productSlugOf (pathStem p.path)) with
        | some product_path => some { path := p.path, product_path := some product_path }
        | none => some { path := p.path }
      else none)

/-- Source `collect_cached_ads` (for an existing directory; a missing directory gives
`[]` before any of this runs): `random.shuffle` permutes the collected list in
place with run-dependent randomness, modelled as an explicit permutation
argument. -/
def collect_cached_ads (shuffle : List Video → List Video) (products : List Product)
    (entries : List DirEntry) : List Video :=
  shuffle (collectCachedAdsRaw products entries)

/-- The `Video` the cached-ad scan produces for a kept directory entry: the
entry's path, with `product_path` the slug-table lookup of the text before the
first `"__"` of its stem. -/
def recoveredAd (products : List Product) (e : DirEntry) : Video :=
  { path := e.path
    product_path := dictGet (productBySlug products) (productSlugOf (pathStem e.path)) }

/-! ## src/das/ad_generation.py — generate_ad product selection -/

/-- The product-selection stage of `generate_ad`: the source draws uniformly
at random with `prod = random.choice(products)` (raising on an empty list,
modelled as `none`); `randIdx` is the index the RNG drew. No model output
enters the choice. -/
def generateAdChooseProduct (products : List Product) (randIdx : Nat) :
    Option Product :=
  products.get? randIdx

/-- The selection mechanism claim C2 describes, following the spec's words: a
numbered candidate list is shown to a chat model that answers with
`selected_index`, which is clamped into the valid index range before use. -/
def chooseProductClaimed (products : List Product) (selected_index : Int) :
    Option Product :=
  if products.isEmpty then none
  else
    let clamped := max 0 (min selected_index ((products.length : Int) - 1))
    products.get? clamped.toNat

/-! ## src/das/scroll_ui.py — ad scheduling

Only the feed/scheduling state touched by `_go_next` and
`_maybe_insert_ad_after_current` is modelled; playback, watch-time commits and
the background-generation bookkeeping (`_ensure_ad_queued`) are UI/IO effects
with no bearing on this state. -/

/-- Source `VideoState` dataclass. -/
structure VideoState where
  video : Video
  seconds_watched : ℚ := 0
  reaction : UserReaction := {}
  is_ad : Bool := false
  context_appended : Bool := false
deriving DecidableEq

/-- The `ScrollWindow` fields driving ad scheduling. -/
structure ScrollState where
  video_states : List VideoState
  current_index : Nat := 0
  organic_views_since_last_ad : Nat := 0
  ad_cache : List Video := []
deriving DecidableEq

/-- Source `_maybe_insert_ad_after_current`: with `N = 5`, do nothing below the
threshold or with an empty cache (the counter is left untouched); otherwise
pop the front of the FIFO ad cache, splice it at
`min(current_index + 1, len(video_states))`, and reset the counter. -/
def maybeInsertAdAfterCurrent (s : ScrollState) : ScrollState :=
  if s.organic_views_since_last_ad < 5 then s
  else
    match s.ad_cache with
    | [] => s
    | ad_video :: rest =>
      let insert_at := min (s.current_index + 1) s.video_states.length
      { s with
        video_states := s.video_states.insertIdx insert_at { video := ad_video, is_ad := true }
        organic_views_since_last_ad := 0
        ad_cache := rest }

/-- Source `_go_next`: advance with wrap-around; when the newly current video is not
an ad, bump the organic-view counter and run the insertion check. The
empty-feed guard is unreachable in the UI (startup aborts on an empty list;
Python would raise a division error there). -/
def goNext (s : ScrollState) : ScrollState :=
  if s.video_states = [] then s
  else
    let idx := (s.current_index + 1) % s.video_states.length
    let s1 := { s with current_index := idx }
    let current_video := s1.video_states.getD idx { video := { path := "" } }
    if current_video.is_ad then s1
    else maybeInsertAdAfterCurrent
      { s1 with organic_views_since_last_ad := s1.organic_views_since_last_ad + 1 }

/-- Source `n` consecutive navigations. -/
def goNextN : Nat → ScrollState → ScrollState
  | 0, s => s
  | n + 1, s => goNextN n (goNext s)

/-- The C7 demo feed: 7 organic videos, a fresh counter, one cached ad. -/
def c7InitState : ScrollState :=
  { video_states := (List.range 7).map (fun i => { video := { path := Nat.repr i } })
    ad_cache := [{ path := "ad" }] }

/-! ## Theorems: helper lemmas and the claim theorems C1 .. C10 -/

theorem dictGet_dictInsert_self {α : Type} (m : List (String × α)) (k : String) (v : α) :
    dictGet (dictInsert m k v) k = some v := by
  induction m with
  | nil => simp [dictGet, dictInsert]
  | cons p rest ih =>
    by_cases h : p.1 = k
    · simp [dictGet, dictInsert, h]
    · simp [dictGet, dictInsert, h, ih]

theorem dictGet_dictInsert_ne {α : Type} (m : List (String × α)) (k q : String) (v : α)
    (hqk : q ≠ k) : dictGet (dictInsert m k v) q = dictGet m q := by
  have hkq : k ≠ q := fun h => hqk h.symm
  induction m with
  | nil => simp [dictGet, dictInsert, hkq]
  | cons p rest ih =>
    by_cases h : p.1 = k
    · have hpq : ¬ p.1 = q := by rw [h]; exact hkq
      simp [dictGet, dictInsert, h, hkq, hpq]
    · by_cases h2 : p.1 = q
      · simp [dictGet, dictInsert, h, h2, hqk, hkq]
      · simp [dictGet, dictInsert, h, h2, ih]

/-- C1: `score(product_path, objective)` returns `0.0` for every objective when
the product has no recorded impressions (no row, or a row with zero
impressions); otherwise it returns `avg_watch_seconds` for `"watch_time"`,
`share_rate` for `"shares"`, and `0.4·like_rate + 0.4·share_rate +
0.2·min(avg_watch_seconds, 10)/10` for the default objective `"engagement"`;
the spec's concrete row `(10, 80, 4, 2)` scores exactly `0.40` under
`"engagement"`. -/
theorem score_spec :
    (∀ (store : AdPerformanceStore) (p obj : String),
      (dictGet store p = none ∨ ∃ m, dictGet store p = some m ∧ m.impressions = 0) →
      store.score p obj = 0)
  ∧ (∀ (store : AdPerformanceStore) (p : String) (m : AdPerformance),
      dictGet store p = some m → m.impressions ≠ 0 →
      store.score p "watch_time" = m.avg_watch_seconds
      ∧ store.score p "shares" = m.share_rate
      ∧ store.score p "engagement" =
          0.4 * m.like_rate + 0.4 * m.share_rate +
            0.2 * (min m.avg_watch_seconds 10 / 10))
  ∧ scoreDemoStore.score "p" "engagement" = 0.4 := by
  refine ⟨?_, ?_, ?_⟩
  · intro store p obj h
    rcases h with h | ⟨m, hm, hz⟩
    · simp [AdPerformanceStore.score, h]
    · simp [AdPerformanceStore.score, hm, hz]
  · intro store p m hm hz
    refine ⟨?_, ?_, ?_⟩ <;> simp [AdPerformanceStore.score, hm, hz]
  · have hw : ("engagement" : String) ≠ "watch_time" := by decide
    have hs : ("engagement" : String) ≠ "shares" := by decide
    norm_num [AdPerformanceStore.score, scoreDemoStore, dictGet, hw, hs,
      AdPerformance.like_rate, AdPerformance.share_rate, AdPerformance.avg_watch_seconds]

/-- Closed witness for C1: the zero case at an empty store and the engagement
formula at the spec's concrete row, obtained by applying `score_spec`. -/
theorem score_spec_witness :
    AdPerformanceStore.score [] "x" "shares" = 0
    ∧ scoreDemoStore.score "p" "watch_time" = 8 := by
  constructor
  · exact score_spec.1 [] "x" "shares" (Or.inl rfl)
  · have h := (score_spec.2.1 scoreDemoStore "p"
      { product_path := "p", impressions := 10, total_watch_seconds := 80,
        likes := 4, shares := 2 } (by simp [scoreDemoStore, dictGet]) (by norm_num)).1
    rw [h]; norm_num [AdPerformance.avg_watch_seconds]

/-- C6: `record_impression` leaves the store unchanged when
`seconds_watched ≤ 0`; otherwise it creates the row if absent and updates it by
incrementing `impressions` by 1, adding `max(0, seconds_watched)` to
`total_watch_seconds`, bumping `likes`/`shares` iff the flags are set, and it
touches no other row. -/
theorem record_impression_spec :
    (∀ (store : AdPerformanceStore) (p : String) (secs : ℚ) (l s : Bool),
      secs ≤ 0 → store.record_impression p secs l s = store)
  ∧ (∀ (store : AdPerformanceStore) (p : String) (secs : ℚ) (l s : Bool),
      0 < secs →
      (dictGet (store.record_impression p secs l s) p =
        some { product_path := ((dictGet store p).getD { product_path := p }).product_path
               impressions := ((dictGet store p).getD { product_path := p }).impressions + 1
               total_watch_seconds :=
                 ((dictGet store p).getD { product_path := p }).total_watch_seconds + max 0 secs
               likes := ((dictGet store p).getD { product_path := p }).likes +
                 (if l then 1 else 0)
               shares := ((dictGet store p).getD { product_path := p }).shares +
                 (if s then 1 else 0) })
      ∧ ∀ q, q ≠ p → dictGet (store.record_impression p secs l s) q = dictGet store q) := by
  constructor
  · intro store p secs l s h
    simp [AdPerformanceStore.record_impression, h]
  · intro store p secs l s h
    have hns : ¬ secs ≤ 0 := not_le.mpr h
    constructor
    · simp only [AdPerformanceStore.record_impression, if_neg hns]
      rw [dictGet_dictInsert_self]
    · intro q hq
      simp only [AdPerformanceStore.record_impression, if_neg hns]
      exact dictGet_dictInsert_ne _ _ _ _ hq

/-- Closed witness for C6: both branches of `record_impression_spec` at
concrete inputs (a no-op for `secs = 0`, and a fresh-row creation for
`secs = 3` that leaves an unrelated row untouched). -/
theorem record_impression_spec_witness :
    AdPerformanceStore.record_impression scoreDemoStore "p" 0 true false = scoreDemoStore
    ∧ dictGet (AdPerformanceStore.record_impression scoreDemoStore "q" 3 true false) "q" =
        some { product_path := "q", impressions := 1, total_watch_seconds := 3,
               likes := 1, shares := 0 }
    ∧ dictGet (AdPerformanceStore.record_impression scoreDemoStore "q" 3 true false) "p" =
        dictGet scoreDemoStore "p" := by
  refine ⟨record_impression_spec.1 scoreDemoStore "p" 0 true false (by norm_num), ?_, ?_⟩
  · have h := (record_impression_spec.2 scoreDemoStore "q" 3 true false (by norm_num)).1
    rw [h]
    have hne : ("p" : String) ≠ "q" := by decide
    norm_num [scoreDemoStore, dictGet, hne, max_eq_right]
  · exact (record_impression_spec.2 scoreDemoStore "q" 3 true false (by norm_num)).2
      "p" (by decide)

theorem takeRightN_of_le {α : Type} {n : Nat} {xs : List α} (h : xs.length ≤ n) :
    takeRightN n xs = xs := by
  unfold takeRightN
  rw [Nat.sub_eq_zero_of_le h, List.drop_zero]

theorem takeRightN_length_le {α : Type} (n : Nat) (xs : List α) :
    (takeRightN n xs).length ≤ n := by
  unfold takeRightN
  rw [List.length_drop]
  omega

theorem dequeAppend_eq {α : Type} (n : Nat) (xs : List α) (x : α) :
    dequeAppend n xs x = takeRightN n (xs ++ [x]) := by
  unfold dequeAppend takeRightN
  by_cases h : n < (xs ++ [x]).length
  · rw [if_pos h]
  · rw [if_neg h, Nat.sub_eq_zero_of_le (le_of_not_lt h), List.drop_zero]

theorem takeRightN_append_left {α : Type} {n : Nat} (p z : List α) (h : n ≤ z.length) :
    takeRightN n (p ++ z) = takeRightN n z := by
  unfold takeRightN
  have h1 : (p ++ z).length - n = p.length + (z.length - n) := by
    rw [List.length_append]; omega
  rw [h1, List.drop_append]

theorem takeRightN_idem_append {α : Type} (n : Nat) (xs ys : List α) :
    takeRightN n (takeRightN n xs ++ ys) = takeRightN n (xs ++ ys) := by
  by_cases h : xs.length ≤ n
  · rw [takeRightN_of_le h]
  · have hlen : (takeRightN n xs).length = n := by
      unfold takeRightN; rw [List.length_drop]; omega
    have key : xs.take (xs.length - n) ++ (takeRightN n xs ++ ys) = xs ++ ys := by
      rw [← List.append_assoc]
      unfold takeRightN
      rw [List.take_append_drop]
    have h2 : n ≤ (takeRightN n xs ++ ys).length := by
      rw [List.length_append, hlen]; omega
    calc takeRightN n (takeRightN n xs ++ ys)
        = takeRightN n (xs.take (xs.length - n) ++ (takeRightN n xs ++ ys)) :=
          (takeRightN_append_left _ _ h2).symm
      _ = takeRightN n (xs ++ ys) := by rw [key]

theorem appendAll_eq (l : List (Video × UserReaction)) :
    ∀ u : User, u.videos_watched.length ≤ USER_VIDEO_MEMORY_LIMIT →
      u.videos_watched_reaction.length ≤ USER_VIDEO_MEMORY_LIMIT →
      (u.appendAll l).videos_watched =
        takeRightN USER_VIDEO_MEMORY_LIMIT (u.videos_watched ++ l.map Prod.fst)
      ∧ (u.appendAll l).videos_watched_reaction =
        takeRightN USER_VIDEO_MEMORY_LIMIT (u.videos_watched_reaction ++ l.map Prod.snd) := by
  induction l with
  | nil =>
    intro u h1 h2
    constructor <;> simp [User.appendAll, takeRightN_of_le, h1, h2]
  | cons p l ih =>
    intro u h1 h2
    have step : u.appendAll (p :: l) = (u.append_video p.1 p.2).appendAll l := rfl
    have hv : (u.append_video p.1 p.2).videos_watched =
        takeRightN USER_VIDEO_MEMORY_LIMIT (u.videos_watched ++ [p.1]) := by
      simp [User.append_video, dequeAppend_eq]
    have hr : (u.append_video p.1 p.2).videos_watched_reaction =
        takeRightN USER_VIDEO_MEMORY_LIMIT (u.videos_watched_reaction ++ [p.2]) := by
      simp [User.append_video, dequeAppend_eq]
    have h1n : (u.append_video p.1 p.2).videos_watched.length ≤ USER_VIDEO_MEMORY_LIMIT := by
      rw [hv]; exact takeRightN_length_le _ _
    have h2n : (u.append_video p.1 p.2).videos_watched_reaction.length ≤
        USER_VIDEO_MEMORY_LIMIT := by
      rw [hr]; exact takeRightN_length_le _ _
    obtain ⟨e1, e2⟩ := ih _ h1n h2n
    rw [step]
    constructor
    · rw [e1, hv, takeRightN_idem_append, List.append_assoc]
      simp
    · rw [e2, hr, takeRightN_idem_append, List.append_assoc]
      simp

/-- C4: for every `User` (with its deque fields within their declared capacity)
and every sequence of `append_video` calls, the two histories remain parallel
capacity-50 sequences with the oldest entries evicted first — each is exactly
the last 50 of its full append stream, so the video at each position is paired
with the reaction appended with it; appending 60 videos to a fresh user leaves
exactly the most recent 50, index-aligned with their reactions. -/
theorem append_video_bounded_spec :
    (∀ (u : User) (l : List (Video × UserReaction)),
      u.videos_watched.length ≤ USER_VIDEO_MEMORY_LIMIT →
      u.videos_watched_reaction.length ≤ USER_VIDEO_MEMORY_LIMIT →
      (u.appendAll l).videos_watched =
        takeRightN USER_VIDEO_MEMORY_LIMIT (u.videos_watched ++ l.map Prod.fst)
      ∧ (u.appendAll l).videos_watched_reaction =
        takeRightN USER_VIDEO_MEMORY_LIMIT (u.videos_watched_reaction ++ l.map Prod.snd)
      ∧ (u.appendAll l).videos_watched.length ≤ USER_VIDEO_MEMORY_LIMIT
      ∧ (u.videos_watched.length = u.videos_watched_reaction.length →
          (u.appendAll l).videos_watched.length =
            (u.appendAll l).videos_watched_reaction.length))
  ∧ (User.appendAll {} c4DemoPairs).videos_watched =
      ((List.range 60).drop 10).map (fun i => { path := Nat.repr i })
  ∧ (User.appendAll {} c4DemoPairs).videos_watched_reaction =
      ((List.range 60).drop 10).map (fun i => { heart := decide (i % 2 = 0) }) := by
  refine ⟨?_, by decide, by decide⟩
  intro u l h1 h2
  obtain ⟨e1, e2⟩ := appendAll_eq l u h1 h2
  refine ⟨e1, e2, ?_, ?_⟩
  · rw [e1]; exact takeRightN_length_le _ _
  · intro heq
    rw [e1, e2]
    unfold takeRightN
    rw [List.length_drop, List.length_drop, List.length_append, List.length_append,
      List.length_map, List.length_map, heq]

/-- Closed witness for C4: a single append to a fresh user, via
`append_video_bounded_spec`. -/
theorem append_video_bounded_spec_witness :
    (User.appendAll {} [({ path := "a" }, {})]).videos_watched = [{ path := "a" }] := by
  have h := (append_video_bounded_spec.1 {} [({ path := "a" }, {})]
    (by decide) (by decide)).1
  rw [h]; rfl

theorem build_foldl_eq (entries : List StatsVideoEntry) :
    ∀ u : User, entries.foldl buildStep u =
      u.appendAll (entries.filterMap statsEntryIncluded) := by
  induction entries with
  | nil => intro u; rfl
  | cons e l ih =>
    intro u
    rcases hp : e.path with _ | path_str
    · have hstep : buildStep u e = u := by simp [buildStep, hp]
      have hinc : statsEntryIncluded e = none := by simp [statsEntryIncluded, hp]
      simp only [List.foldl_cons, List.filterMap_cons, hinc, hstep]
      exact ih u
    · by_cases hc : e.seconds_watched < MIN_SECONDS_FOR_CONTEXT ∧ (e.heart || e.share) = false
      · have hstep : buildStep u e = u := by simp [buildStep, hp, hc]
        have hinc : statsEntryIncluded e = none := by simp [statsEntryIncluded, hp, hc]
        simp only [List.foldl_cons, List.filterMap_cons, hinc, hstep]
        exact ih u
      · have hstep : buildStep u e = u.append_video { path := path_str }
          { heart := e.heart, share := e.share, seconds_watched := some e.seconds_watched } := by
          simp only [buildStep, hp]
          rw [if_neg hc]
        have hinc : statsEntryIncluded e = some ({ path := path_str },
          { heart := e.heart, share := e.share,
            seconds_watched := some e.seconds_watched }) := by
          simp only [statsEntryIncluded, hp]
          rw [if_neg hc]
        simp only [List.foldl_cons, List.filterMap_cons, hinc, hstep]
        exact ih _

theorem statsEntryIncluded_eq_some (e : StatsVideoEntry) (pr : Video × UserReaction) :
    statsEntryIncluded e = some pr ↔
      e.path = some pr.1.path ∧ pr.1.product_path = none ∧
      pr.2 = { heart := e.heart, share := e.share, seconds_watched := some e.seconds_watched } ∧
      (MIN_SECONDS_FOR_CONTEXT ≤ e.seconds_watched ∨ e.heart = true ∨ e.share = true) := by
  rcases hp : e.path with _ | ps
  · simp [statsEntryIncluded, hp]
  · by_cases hc : e.seconds_watched < MIN_SECONDS_FOR_CONTEXT ∧ (e.heart || e.share) = false
    · have hnone : statsEntryIncluded e = none := by
        simp only [statsEntryIncluded, hp]
        rw [if_pos hc]
      rw [hnone]
      simp only [false_iff, reduceCtorEq]
      rintro ⟨-, -, -, h4⟩
      rcases h4 with h4 | h4 | h4
      · exact absurd hc.1 (not_lt.mpr h4)
      · simp [h4] at hc
      · simp [h4] at hc
    · have hsome : statsEntryIncluded e = some ({ path := ps },
        { heart := e.heart, share := e.share,
          seconds_watched := some e.seconds_watched }) := by
        simp only [statsEntryIncluded, hp]
        rw [if_neg hc]
      rw [hsome]
      constructor
      · intro h
        obtain rfl : pr = ({ path := ps },
          { heart := e.heart, share := e.share,
            seconds_watched := some e.seconds_watched }) := (Option.some_inj.mp h).symm
        refine ⟨rfl, rfl, rfl, ?_⟩
        by_cases hm : MIN_SECONDS_FOR_CONTEXT ≤ e.seconds_watched
        · exact Or.inl hm
        · have hb : (e.heart || e.share) ≠ false := fun hfalse =>
            hc ⟨not_le.mp hm, hfalse⟩
          rcases Bool.or_eq_true_iff.mp (Bool.not_eq_false _ |>.mp hb) with hh | hh
          · exact Or.inr (Or.inl hh)
          · exact Or.inr (Or.inr hh)
      · rintro ⟨h1, h2, h3, -⟩
        have hps : pr.1.path = ps := (Option.some_inj.mp h1).symm
        have hv : pr.1 = { path := ps } := by
          cases pr1 : pr.1
          rw [pr1] at hps h2
          simp at hps h2
          rw [hps, h2]
        rw [← hv, ← h3]

/-- C3 counterexample: the first stats entry (path `"a"`, watched 5.0s) meets
the claimed inclusion condition — `statsEntryIncluded` keeps it — yet no video
with path `"a"` is in the reconstructed history, because the 50 later
qualifying entries evict it from the capacity-50 deque; so inclusion does not
hold "if and only if" the watch-time/engagement condition holds. -/
theorem build_user_inclusion_counterexample :
    statsEntryIncluded { path := some "a", seconds_watched := 5 } ≠ none
    ∧ ({ path := some "a", seconds_watched := 5 } : StatsVideoEntry) ∈ c3CexEntries
    ∧ ∀ v ∈ (build_user_from_stats c3CexEntries).videos_watched, v.path ≠ "a" := by
  refine ⟨by decide, by decide, by decide⟩

/-- C3 (amended): `build_user_from_stats` appends a stats entry to the history
iff its `seconds_watched ≥ 5.0` (`MIN_SECONDS_FOR_CONTEXT`) or it carries heart
or share engagement, the history being the last 50 such entries (capacity-50
deque, oldest evicted): for stats files with at most 50 entries a video is in
the reconstructed history iff some entry for it meets the condition; a 4.9s
unengaged entry is excluded, the same entry at 5.0s is included, and a 0.1s
entry with heart is included. -/
theorem build_user_from_stats_spec :
    (∀ entries : List StatsVideoEntry,
      (build_user_from_stats entries).videos_watched =
        takeRightN USER_VIDEO_MEMORY_LIMIT
          ((entries.filterMap statsEntryIncluded).map Prod.fst)
      ∧ (build_user_from_stats entries).videos_watched_reaction =
        takeRightN USER_VIDEO_MEMORY_LIMIT
          ((entries.filterMap statsEntryIncluded).map Prod.snd))
  ∧ (∀ entries : List StatsVideoEntry, entries.length ≤ USER_VIDEO_MEMORY_LIMIT →
      ∀ v : Video, v ∈ (build_user_from_stats entries).videos_watched ↔
        ∃ e ∈ entries, e.path = some v.path ∧ v.product_path = none ∧
          (MIN_SECONDS_FOR_CONTEXT ≤ e.seconds_watched ∨ e.heart = true ∨ e.share = true))
  ∧ (build_user_from_stats [{ path := some "v", seconds_watched := 4.9 }]).videos_watched = []
  ∧ (build_user_from_stats [{ path := some "v", seconds_watched := 5 }]).videos_watched =
      [{ path := "v" }]
  ∧ (build_user_from_stats
        [{ path := some "v", heart := true, seconds_watched := 0.1 }]).videos_watched =
      [{ path := "v" }] := by
  have hstruct : ∀ entries : List StatsVideoEntry,
      (build_user_from_stats entries).videos_watched =
        takeRightN USER_VIDEO_MEMORY_LIMIT
          ((entries.filterMap statsEntryIncluded).map Prod.fst)
      ∧ (build_user_from_stats entries).videos_watched_reaction =
        takeRightN USER_VIDEO_MEMORY_LIMIT
          ((entries.filterMap statsEntryIncluded).map Prod.snd) := by
    intro entries
    have hb : build_user_from_stats entries =
        User.appendAll {} (entries.filterMap statsEntryIncluded) :=
      build_foldl_eq entries {}
    obtain ⟨e1, e2⟩ := appendAll_eq (entries.filterMap statsEntryIncluded) {}
      (by decide) (by decide)
    rw [hb, e1, e2]
    exact ⟨by rw [List.nil_append], by rw [List.nil_append]⟩
  refine ⟨hstruct, ?_, ?_, ?_, ?_⟩
  · intro entries hlen v
    have hfl : ((entries.filterMap statsEntryIncluded).map Prod.fst).length ≤
        USER_VIDEO_MEMORY_LIMIT := by
      rw [List.length_map]
      exact le_trans (List.length_filterMap_le _ _) hlen
    have hvid : (build_user_from_stats entries).videos_watched =
        (entries.filterMap statsEntryIncluded).map Prod.fst := by
      rw [(hstruct entries).1, takeRightN_of_le hfl]
    rw [hvid]
    constructor
    · intro hv
      obtain ⟨pr, hpr, hfst⟩ := List.mem_map.mp hv
      obtain ⟨e, he, hinc⟩ := List.mem_filterMap.mp hpr
      obtain ⟨h1, h2, -, h4⟩ := (statsEntryIncluded_eq_some e pr).mp hinc
      rw [hfst] at h1 h2
      exact ⟨e, he, h1, h2, h4⟩
    · rintro ⟨e, he, h1, h2, h4⟩
      have hinc : statsEntryIncluded e = some (v,
          { heart := e.heart, share := e.share,
            seconds_watched := some e.seconds_watched }) :=
        (statsEntryIncluded_eq_some e _).mpr ⟨h1, h2, rfl, h4⟩
      exact List.mem_map.mpr ⟨_, List.mem_filterMap.mpr ⟨e, he, hinc⟩, rfl⟩
  · norm_num [build_user_from_stats, buildStep, MIN_SECONDS_FOR_CONTEXT]
  · norm_num [build_user_from_stats, buildStep, MIN_SECONDS_FOR_CONTEXT,
      User.append_video, dequeAppend, USER_VIDEO_MEMORY_LIMIT]
  · norm_num [build_user_from_stats, buildStep, MIN_SECONDS_FOR_CONTEXT,
      User.append_video, dequeAppend, USER_VIDEO_MEMORY_LIMIT]

/-- Closed witness for C3 (amended): a 7-second entry is reconstructed into the
history, via the membership characterization of `build_user_from_stats_spec`. -/
theorem build_user_from_stats_spec_witness :
    ({ path := "w" } : Video) ∈
      (build_user_from_stats [{ path := some "w", seconds_watched := 7 }]).videos_watched := by
  refine (build_user_from_stats_spec.2.1 _ (by decide) _).mpr ?_
  exact ⟨_, List.mem_singleton.mpr rfl, rfl, rfl, Or.inl (by decide)⟩

/-- C5 counterexample: when the model returns 20 parseable posts and the
search returns 5 citation URLs, `fetch_x_history` builds 25 `XPost`s — more
than `USER_X_HISTORY_LIMIT = 20`. -/
theorem fetch_x_history_limit_counterexample :
    ¬ (fetch_x_history_posts (some c5Posts) ""
        ["u1", "u2", "u3", "u4", "u5"]).length ≤ USER_X_HISTORY_LIMIT := by
  decide

/-- C5 (amended): for every handle and model response, the `XHistory` returned
by `fetch_x_history` contains at most `USER_X_HISTORY_LIMIT` parsed posts plus
at most 5 synthetic citation posts — at most 25 `XPost`s in total (the
JSON-decode-failure path contributes a single `summary` post instead of the
parsed ones). -/
theorem fetch_x_history_posts_spec :
    ∀ (parsed : Option (List XPostData)) (response_content : String)
      (citations : List String),
      (fetch_x_history_posts parsed response_content citations).length ≤
        USER_X_HISTORY_LIMIT + 5 := by
  intro parsed response_content citations
  have hfold : ∀ (l : List XPostData) (acc : List XPost),
      ((l.foldl
        (fun acc post_data =>
          let post : XPost := { text := pySlice post_data.text 500,
                                interaction_type := post_data.type,
                                author_handle := post_data.author }
          if post.text ≠ "" then acc ++ [post] else acc) acc).length ≤
        acc.length + l.length) := by
    intro l
    induction l with
    | nil => intro acc; simp
    | cons x xs ih =>
      intro acc
      simp only [List.foldl_cons]
      refine le_trans (ih _) ?_
      by_cases hx2 : pySlice x.text 500 ≠ ""
      · simp only [if_pos hx2, List.length_append, List.length_cons, List.length_nil]
        omega
      · simp only [if_neg hx2, List.length_cons]
        omega
  have hcit : ((citations.take 5).map
      (fun url => ({ text := "Engaged with: " ++ url, interaction_type := "citation",
                     url := some url } : XPost))).length ≤ 5 := by
    rw [List.length_map]
    exact le_trans (List.length_take_le _ _) (le_refl 5)
  have hlim : USER_X_HISTORY_LIMIT = 20 := rfl
  unfold fetch_x_history_posts
  rcases parsed with _ | posts_data
  · simp only [List.length_append, List.length_cons, List.length_nil]
    omega
  · simp only [List.length_append]
    have h1 := hfold (posts_data.take USER_X_HISTORY_LIMIT) []
    have h2 : (posts_data.take USER_X_HISTORY_LIMIT).length ≤ USER_X_HISTORY_LIMIT :=
      List.length_take_le _ _
    simp only [List.length_nil, Nat.zero_add] at h1
    omega

/-- Source `entry.get("product_path") or key` in `AdPerformanceStore.load`. A truthy
non-string `product_path` would make Python key the metrics dict by that raw
value; the model keeps string keys and folds that corner (unexercised by every
theorem below) into the fallback. -/
theorem except_bind_ok {ε α β : Type} (a : α) (f : α → Except ε β) :
    (Except.ok a : Except ε α) >>= f = f a := rfl

theorem except_pure_eq {ε α : Type} (a : α) : (pure a : Except ε α) = .ok a := rfl

theorem pyInt_intCast (n : Int) : pyInt (.num (n : ℚ)) = .ok n := by
  show Except.ok ((n : ℚ).num.tdiv ((n : ℚ).den : Int)) = Except.ok n
  rw [Rat.num_intCast, Rat.den_intCast]
  norm_num

theorem resolveProductPath_self (k : String) :
    resolveProductPath k (some (.str k)) = k := by
  unfold resolveProductPath
  simp [ite_self]

theorem parse_asdict (m : AdPerformance) (k : String) (hk : m.product_path = k) :
    parseAdPerformanceRow k
      [("product_path", .str m.product_path),
       ("impressions", .num (m.impressions : ℚ)),
       ("total_watch_seconds", .num m.total_watch_seconds),
       ("likes", .num (m.likes : ℚ)),
       ("shares", .num (m.shares : ℚ))] = .ok (k, m) := by
  subst hk
  have n1 : ("product_path" : String) ≠ "impressions" := by decide
  have n2 : ("product_path" : String) ≠ "total_watch_seconds" := by decide
  have n3 : ("product_path" : String) ≠ "likes" := by decide
  have n4 : ("product_path" : String) ≠ "shares" := by decide
  have n5 : ("impressions" : String) ≠ "total_watch_seconds" := by decide
  have n6 : ("impressions" : String) ≠ "likes" := by decide
  have n7 : ("impressions" : String) ≠ "shares" := by decide
  have n8 : ("total_watch_seconds" : String) ≠ "likes" := by decide
  have n9 : ("total_watch_seconds" : String) ≠ "shares" := by decide
  have n10 : ("likes" : String) ≠ "shares" := by decide
  simp [parseAdPerformanceRow, dictGet, resolveProductPath_self, pyInt_intCast, pyFloat,
    except_bind_ok, except_pure_eq, n1, n2, n3, n4, n5, n6, n7, n8, n9, n10]

theorem dictInsert_of_not_mem {α : Type} (m : List (String × α)) (k : String) (v : α)
    (h : k ∉ m.map Prod.fst) : dictInsert m k v = m ++ [(k, v)] := by
  induction m with
  | nil => rfl
  | cons p rest ih =>
    simp only [List.map_cons, List.mem_cons] at h
    push_neg at h
    have hpk : ¬ p.1 = k := fun hh => h.1 hh.symm
    simp [dictInsert, hpk, ih h.2]

theorem loadRows_asdict (l : AdPerformanceStore) :
    ∀ acc : AdPerformanceStore,
      (∀ p ∈ l, p.2.product_path = p.1) →
      (l.map Prod.fst).Nodup →
      (∀ k ∈ l.map Prod.fst, k ∉ acc.map Prod.fst) →
      loadRows (l.map (fun p => (p.1, p.2.asdict))) acc = .ok (acc ++ l) := by
  induction l with
  | nil =>
    intro acc _ _ _
    simp [loadRows]
  | cons p rest ih =>
    intro acc hkeys hnodup hdisj
    have hp : p.2.product_path = p.1 := hkeys p (List.mem_cons_self _ _)
    have hrow := parse_asdict p.2 p.1 hp
    have hins : dictInsert acc p.1 p.2 = acc ++ [(p.1, p.2)] :=
      dictInsert_of_not_mem acc p.1 p.2 (hdisj p.1 (by simp))
    have hrest := ih (acc ++ [(p.1, p.2)])
      (fun q hq => hkeys q (List.mem_cons_of_mem _ hq))
      (by
        simp only [List.map_cons] at hnodup
        exact hnodup.of_cons)
      (by
        intro q hq
        simp only [List.map_append, List.mem_append, List.map_cons, List.map_nil,
          List.mem_singleton]
        push_neg
        refine ⟨hdisj q (by simp [hq]), ?_⟩
        simp only [List.map_cons] at hnodup
        intro hqp
        exact absurd hq (by rw [hqp]; exact (List.nodup_cons.mp hnodup).1))
    simp only [List.map_cons, loadRows, AdPerformance.asdict]
    rw [hrow]
    have hfinal : loadRows (rest.map (fun q => (q.1, q.2.asdict)))
        (dictInsert acc p.1 p.2) = .ok (acc ++ p :: rest) := by
      rw [hins, hrest]
      simp
    exact hfinal

/-- C9 counterexample: `AdPerformanceStore.load` can raise. On the parsable
JSON payload `\x7b"k": \x7b"impressions": "x"\x7d\x7d`, the row-parsing
`int(entry.get("impressions", 0))` raises an uncaught `ValueError` (only
`OSError` and `json.JSONDecodeError` are caught), so "load never raises" is
false. -/
theorem load_never_raises_counterexample :
    AdPerformanceStore.load (.parsed c9BadPayload) = .error () := rfl

/-- C9 (amended): for a missing metrics file, an unreadable one, or one
containing malformed/unparsable JSON, `load` returns an empty store without
raising, exactly as if the file were absent (it is not, however, raise-free on
every parsable payload: see the counterexample). -/
theorem load_fail_soft_spec :
    AdPerformanceStore.load .missing = .ok []
    ∧ AdPerformanceStore.load .ioError = .ok []
    ∧ AdPerformanceStore.load .malformed = .ok []
    ∧ AdPerformanceStore.load .malformed = AdPerformanceStore.load .missing :=
  ⟨rfl, rfl, rfl, rfl⟩

/-- C10: saving an `AdPerformanceStore` and loading the result round-trips:
for every store whose rows are keyed by their own `product_path` (keys being
unique, as in any store built through the dict), loading the JSON produced by
`save` yields exactly the same store — same keys, and identical
`impressions`, `total_watch_seconds`, `likes`, `shares` for each key. -/
theorem save_load_round_trip :
    ∀ store : AdPerformanceStore,
      (∀ p ∈ store, p.2.product_path = p.1) →
      (store.map Prod.fst).Nodup →
      AdPerformanceStore.load (.parsed store.save) = .ok store := by
  intro store h1 h2
  have haux := loadRows_asdict store [] h1 h2 (by simp)
  simpa [AdPerformanceStore.load, AdPerformanceStore.save] using haux

/-- Closed witness for C10: the demo store round-trips through `save` and
`load`. -/
theorem save_load_round_trip_witness :
    AdPerformanceStore.load (.parsed scoreDemoStore.save) = .ok scoreDemoStore :=
  save_load_round_trip scoreDemoStore (by decide) (by decide)

theorem dictGet_productBySlug_aux (l : List Product) :
    ∀ (acc : List (String × String)) (slug : String),
      (dictGet (l.foldl
          (fun m prod => dictInsert m (slugify (pathStem prod.path)) prod.path) acc) slug
        = none ↔
        (dictGet acc slug = none ∧ ∀ prod ∈ l, slugify (pathStem prod.path) ≠ slug))
      ∧ (∀ p, dictGet (l.foldl
          (fun m prod => dictInsert m (slugify (pathStem prod.path)) prod.path) acc) slug
          = some p →
          dictGet acc slug = some p ∨ ∃ prod ∈ l, prod.path = p ∧
            slugify (pathStem prod.path) = slug) := by
  induction l with
  | nil => intro acc slug; simp
  | cons prod l ih =>
    intro acc slug
    simp only [List.foldl_cons]
    obtain ⟨ihn, ihs⟩ := ih (dictInsert acc (slugify (pathStem prod.path)) prod.path) slug
    constructor
    · rw [ihn]
      by_cases hs : slug = slugify (pathStem prod.path)
      · rw [← hs, dictGet_dictInsert_self]
        simp [hs]
      · rw [dictGet_dictInsert_ne _ _ _ _ hs]
        constructor
        · rintro ⟨h1, h2⟩
          exact ⟨h1, by
            intro q hq
            rcases List.mem_cons.mp hq with rfl | hq2
            · exact fun hh => hs hh.symm
            · exact h2 q hq2⟩
        · rintro ⟨h1, h2⟩
          exact ⟨h1, fun q hq => h2 q (List.mem_cons_of_mem _ hq)⟩
    · intro p hp
      rcases ihs p hp with h | ⟨q, hq, hqp, hslug⟩
      · by_cases hs : slug = slugify (pathStem prod.path)
        · rw [← hs, dictGet_dictInsert_self] at h
          exact Or.inr ⟨prod, List.mem_cons_self _ _, Option.some_inj.mp h, hs.symm⟩
        · rw [dictGet_dictInsert_ne _ _ _ _ hs] at h
          exact Or.inl h
      · exact Or.inr ⟨q, List.mem_cons_of_mem _ hq, hqp, hslug⟩

theorem productBySlug_none_iff (products : List Product) (slug : String) :
    dictGet (productBySlug products) slug = none ↔
      ∀ prod ∈ products, slugify (pathStem prod.path) ≠ slug := by
  have h := (dictGet_productBySlug_aux products [] slug).1
  simpa [productBySlug, dictGet] using h

theorem productBySlug_some (products : List Product) (slug : String) (p : String)
    (h : dictGet (productBySlug products) slug = some p) :
    ∃ prod ∈ products, prod.path = p ∧ slugify (pathStem prod.path) = slug := by
  have haux := (dictGet_productBySlug_aux products [] slug).2 p h
  rcases haux with habs | hgood
  · simp [dictGet] at habs
  · exact hgood

/-- C8: every regular file in the generated-ads directory with a supported
video extension is returned by `collect_cached_ads` as a `Video` whose
`product_path` is the slug-table lookup of the text before the first `"__"` of
its stem — `some` of the (last) catalog product whose slugified stem equals
that text when one exists, `none` (ad still kept) when no product slug
matches; concretely, `gpu__power-user-who-loves-tech.mp4` with `gpu.png` in
the catalog is recovered with `product_path` pointing at `gpu.png`, and
without a matching product it is still recovered with `product_path` absent. -/
theorem collect_cached_ads_spec :
    (∀ (shuffle : List Video → List Video) (products : List Product)
        (entries : List DirEntry) (e : DirEntry),
      (∀ l, (shuffle l).Perm l) →
      e ∈ entries → e.isFile = true →
      adVideoExts.contains (pyLower (pathSuffix e.path)) = true →
      recoveredAd products e ∈ collect_cached_ads shuffle products entries)
  ∧ (∀ (products : List Product) (slug : String),
      dictGet (productBySlug products) slug = none ↔
        ∀ prod ∈ products, slugify (pathStem prod.path) ≠ slug)
  ∧ (∀ (products : List Product) (slug p : String),
      dictGet (productBySlug products) slug = some p →
        ∃ prod ∈ products, prod.path = p ∧ slugify (pathStem prod.path) = slug)
  ∧ collect_cached_ads id [{ path := "assets/products/gpu.png" }]
      [{ path := "assets/videos_generated/gpu__power-user-who-loves-tech.mp4" }] =
      [{ path := "assets/videos_generated/gpu__power-user-who-loves-tech.mp4",
         product_path := some "assets/products/gpu.png" }]
  ∧ collect_cached_ads id [{ path := "assets/products/camera.png" }]
      [{ path := "assets/videos_generated/gpu__power-user-who-loves-tech.mp4" }] =
      [{ path := "assets/videos_generated/gpu__power-user-who-loves-tech.mp4" }] := by
  refine ⟨?_, productBySlug_none_iff, productBySlug_some, by decide, by decide⟩
  intro shuffle products entries e hshuffle he hfile hext
  have hraw : recoveredAd products e ∈ collectCachedAdsRaw products entries := by
    refine List.mem_filterMap.mpr ⟨e, he, ?_⟩
    rw [if_pos ⟨hext, hfile⟩]
    rcases hd : dictGet (productBySlug products) (productSlugOf (pathStem e.path)) with
      _ | pp <;> simp [recoveredAd, hd]
  exact ((hshuffle (collectCachedAdsRaw products entries)).mem_iff).mpr hraw

/-- Closed witness for C8: the gpu example, fed through the membership part of
`collect_cached_ads_spec` with the identity permutation. -/
theorem collect_cached_ads_spec_witness :
    ({ path := "assets/videos_generated/gpu__power-user-who-loves-tech.mp4",
       product_path := some "assets/products/gpu.png" } : Video) ∈
      collect_cached_ads id [{ path := "assets/products/gpu.png" }]
        [{ path := "assets/videos_generated/gpu__power-user-who-loves-tech.mp4" }] := by
  have h := collect_cached_ads_spec.1 id [{ path := "assets/products/gpu.png" }]
    [{ path := "assets/videos_generated/gpu__power-user-who-loves-tech.mp4" }]
    { path := "assets/videos_generated/gpu__power-user-who-loves-tech.mp4" }
    (fun l => List.Perm.refl l) (by decide) (by decide) (by decide)
  have hrec : recoveredAd [{ path := "assets/products/gpu.png" }]
      { path := "assets/videos_generated/gpu__power-user-who-loves-tech.mp4" } =
      { path := "assets/videos_generated/gpu__power-user-who-loves-tech.mp4",
        product_path := some "assets/products/gpu.png" } := by decide
  rw [hrec] at h
  exact h

/-- C2 counterexample: with two candidate products, a drawn random index 0 and
a model answer `selected_index = 1` (already in range, clamping included), the
source selects the camera product while the claimed mechanism selects the gpu
product — `generate_ad`'s selection is not the clamped-model-index product. -/
theorem generate_ad_selection_counterexample :
    generateAdChooseProduct
        [{ path := "assets/products/camera.png" }, { path := "assets/products/gpu.png" }] 0
      = some { path := "assets/products/camera.png" }
    ∧ chooseProductClaimed
        [{ path := "assets/products/camera.png" }, { path := "assets/products/gpu.png" }] 1
      = some { path := "assets/products/gpu.png" }
    ∧ generateAdChooseProduct
        [{ path := "assets/products/camera.png" }, { path := "assets/products/gpu.png" }] 0
      ≠ chooseProductClaimed
        [{ path := "assets/products/camera.png" }, { path := "assets/products/gpu.png" }] 1 := by
  refine ⟨rfl, by decide, by decide⟩

/-- C2 (amended): `generate_ad` chooses the advertised product by
`random.choice(products)` — the element at the uniformly drawn index, hence
always one of the candidates; no chat-model query, numbered list, JSON
response contract, or index clamping is involved (the source's TODO defers a
richer recommendation system). -/
theorem generate_ad_selection_spec :
    ∀ (products : List Product) (randIdx : Nat) (h : randIdx < products.length),
      generateAdChooseProduct products randIdx = some (products.get ⟨randIdx, h⟩)
      ∧ ∀ p, generateAdChooseProduct products randIdx = some p → p ∈ products := by
  intro products randIdx h
  constructor
  · exact List.get?_eq_get h
  · intro p hp
    exact List.get?_mem hp

/-- Closed witness for C2 (amended): the second product is selected when the
RNG draws index 1. -/
theorem generate_ad_selection_spec_witness :
    generateAdChooseProduct
      [{ path := "assets/products/camera.png" }, { path := "assets/products/gpu.png" }] 1
      = some { path := "assets/products/gpu.png" } := by
  have h := (generate_ad_selection_spec
    [{ path := "assets/products/camera.png" }, { path := "assets/products/gpu.png" }] 1
    (by decide)).1
  rw [h]
  rfl

theorem goNext_advance (s : ScrollState)
    (hall : ∀ v ∈ s.video_states, v.is_ad = false)
    (hne : s.video_states ≠ [])
    (hlt : s.organic_views_since_last_ad + 1 < 5) :
    goNext s = { s with
      current_index := (s.current_index + 1) % s.video_states.length
      organic_views_since_last_ad := s.organic_views_since_last_ad + 1 } := by
  have hpos : 0 < s.video_states.length := List.length_pos.mpr hne
  have hidx : (s.current_index + 1) % s.video_states.length < s.video_states.length :=
    Nat.mod_lt _ hpos
  have had : (s.video_states.getD ((s.current_index + 1) % s.video_states.length)
      { video := { path := "" } }).is_ad = false := by
    rw [List.getD_eq_getElem s.video_states _ hidx]
    exact hall _ (List.getElem_mem hidx)
  simp only [goNext, if_neg hne, had, Bool.false_eq_true, if_false,
    maybeInsertAdAfterCurrent]
  rw [if_pos hlt]

theorem goNext_insert (s : ScrollState) (a : Video) (rest : List Video)
    (hall : ∀ v ∈ s.video_states, v.is_ad = false)
    (hne : s.video_states ≠ [])
    (hge : 4 ≤ s.organic_views_since_last_ad)
    (hcache : s.ad_cache = a :: rest) :
    goNext s = { s with
      current_index := (s.current_index + 1) % s.video_states.length
      video_states := s.video_states.insertIdx
        (min ((s.current_index + 1) % s.video_states.length + 1) s.video_states.length)
        { video := a, is_ad := true }
      organic_views_since_last_ad := 0
      ad_cache := rest } := by
  have hpos : 0 < s.video_states.length := List.length_pos.mpr hne
  have hidx : (s.current_index + 1) % s.video_states.length < s.video_states.length :=
    Nat.mod_lt _ hpos
  have had : (s.video_states.getD ((s.current_index + 1) % s.video_states.length)
      { video := { path := "" } }).is_ad = false := by
    rw [List.getD_eq_getElem s.video_states _ hidx]
    exact hall _ (List.getElem_mem hidx)
  have hnlt : ¬ (s.organic_views_since_last_ad + 1 < 5) := by omega
  simp only [goNext, if_neg hne, had, Bool.false_eq_true, if_false,
    maybeInsertAdAfterCurrent]
  rw [if_neg hnlt, hcache]

theorem goNext_no_cache (s : ScrollState)
    (hall : ∀ v ∈ s.video_states, v.is_ad = false)
    (hne : s.video_states ≠ [])
    (hcache : s.ad_cache = []) :
    goNext s = { s with
      current_index := (s.current_index + 1) % s.video_states.length
      organic_views_since_last_ad := s.organic_views_since_last_ad + 1 } := by
  have hpos : 0 < s.video_states.length := List.length_pos.mpr hne
  have hidx : (s.current_index + 1) % s.video_states.length < s.video_states.length :=
    Nat.mod_lt _ hpos
  have had : (s.video_states.getD ((s.current_index + 1) % s.video_states.length)
      { video := { path := "" } }).is_ad = false := by
    rw [List.getD_eq_getElem s.video_states _ hidx]
    exact hall _ (List.getElem_mem hidx)
  simp only [goNext, if_neg hne, had, Bool.false_eq_true, if_false,
    maybeInsertAdAfterCurrent]
  by_cases hlt : s.organic_views_since_last_ad + 1 < 5
  · rw [if_pos hlt]
  · rw [if_neg hlt, hcache]

/-- C7 counterexample: starting from a zero organic-view counter and a
non-empty ad cache, the ad is already inserted by the 5th organic navigation
itself (one ad in the feed right after the then-current index 5, cache
drained, counter reset) — so no 6th organic navigation is needed, and none
could insert anything with the cache now empty; the claim that "the next
organic navigation after 5" triggers the insertion is false. -/
theorem ad_insertion_counterexample :
    (c7InitState.organic_views_since_last_ad = 0 ∧ c7InitState.ad_cache ≠ []
      ∧ ∀ v ∈ c7InitState.video_states, v.is_ad = false)
    ∧ (goNextN 4 c7InitState).video_states.countP (fun v => v.is_ad) = 0
    ∧ (goNextN 5 c7InitState).video_states.countP (fun v => v.is_ad) = 1
    ∧ (goNextN 5 c7InitState).ad_cache = []
    ∧ (goNextN 5 c7InitState).organic_views_since_last_ad = 0
    ∧ (goNextN 5 c7InitState).video_states.map (fun v => (v.video.path, v.is_ad)) =
        [("0", false), ("1", false), ("2", false), ("3", false), ("4", false),
         ("5", false), ("ad", true), ("6", false)] := by
  refine ⟨⟨rfl, by decide, by decide⟩, by decide, by decide, by decide, by decide, by decide⟩

/-- C7 (amended): ads are inserted on every 5th organic view — on an all-organic
feed, a navigation that raises the counter to less than 5 only advances the
index and counter; the navigation that raises it to 5 (or beyond, after
empty-cache retries) with a cached ad inserts exactly that one ad, popped from
the front of the FIFO cache and spliced immediately after the new current
index, and resets the counter to 0; if no ad is cached the navigation changes
nothing but the index and counter, so the check recurs on the next organic
view. Concretely, from a fresh counter and one cached ad, the first 4
navigations insert nothing and the 5th performs the single insertion. -/
theorem ad_insertion_cadence_spec :
    (∀ s : ScrollState, (∀ v ∈ s.video_states, v.is_ad = false) →
      s.video_states ≠ [] → s.organic_views_since_last_ad + 1 < 5 →
      goNext s = { s with
        current_index := (s.current_index + 1) % s.video_states.length
        organic_views_since_last_ad := s.organic_views_since_last_ad + 1 })
  ∧ (∀ (s : ScrollState) (a : Video) (rest : List Video),
      (∀ v ∈ s.video_states, v.is_ad = false) →
      s.video_states ≠ [] → 4 ≤ s.organic_views_since_last_ad →
      s.ad_cache = a :: rest →
      goNext s = { s with
        current_index := (s.current_index + 1) % s.video_states.length
        video_states := s.video_states.insertIdx
          (min ((s.current_index + 1) % s.video_states.length + 1) s.video_states.length)
          { video := a, is_ad := true }
        organic_views_since_last_ad := 0
        ad_cache := rest })
  ∧ (∀ s : ScrollState, (∀ v ∈ s.video_states, v.is_ad = false) →
      s.video_states ≠ [] → s.ad_cache = [] →
      goNext s = { s with
        current_index := (s.current_index + 1) % s.video_states.length
        organic_views_since_last_ad := s.organic_views_since_last_ad + 1 })
  ∧ (goNextN 4 c7InitState).video_states = c7InitState.video_states
  ∧ (goNextN 4 c7InitState).ad_cache = c7InitState.ad_cache
  ∧ (goNextN 4 c7InitState).organic_views_since_last_ad = 4
  ∧ goNextN 5 c7InitState = { c7InitState with
      current_index := 5
      video_states := c7InitState.video_states.insertIdx 6
        { video := { path := "ad" }, is_ad := true }
      organic_views_since_last_ad := 0
      ad_cache := [] } := by
  exact ⟨goNext_advance, goNext_insert, goNext_no_cache,
    by decide, by decide, by decide, by decide⟩

/-- Closed witness for C7 (amended): the below-threshold and insertion step
shapes of `ad_insertion_cadence_spec`, at the demo state. -/
theorem ad_insertion_cadence_spec_witness :
    goNext c7InitState = { c7InitState with
      current_index := 1
      organic_views_since_last_ad := 1 } := by
  have h := ad_insertion_cadence_spec.1 c7InitState (by decide) (by decide) (by decide)
  rw [h]
  rfl

end DoomScrollAds
